import Mathlib

/-!
Shallow embedding of the rollup Proposer from `crates/l2/proposer/mod.rs`.

Pure data (hashes, calldata) is modelled with `Nat` and `List Nat` (bytes);
the asynchronous environment (execution-engine client, settlement-layer RPC
client, local block store) is passed in as explicit oracle records, one
answer per call site, and each operation additionally returns the list of
externally observable events it performed, in order.  Rust `Result` becomes
`Except`; a Rust `panic!` (or a panicking narrowing conversion) becomes a
distinguished `panicked` outcome; the two source-level unbounded loops
(receipt polling and the block-production loop) take explicit fuel, with a
distinguished `outOfFuel` outcome that only the embedding can produce.
-/

namespace Spec2Proof

/-- Errors raised by the proposer.  The `errors.rs` module is not among the
provided source files; the constructors are taken from their use sites in
`proposer/mod.rs` (`FailedToProduceBlock`, `FailedToRetrieveBlockFromStorage`)
plus one constructor for errors propagated from the eth client via `?`. -/
inductive ProposerError where
  | FailedToProduceBlock (msg : String)
  | FailedToRetrieveBlockFromStorage (msg : String)
  | EthClientError (msg : String)
  deriving Repr, DecidableEq

/-- `const COMMIT_FUNCTION_SELECTOR: [u8; 4] = [241, 79, 203, 200];` -/
def COMMIT_FUNCTION_SELECTOR : List Nat := [241, 79, 203, 200]

/-- `const VERIFY_FUNCTION_SELECTOR: [u8; 4] = [142, 118, 10, 254];` -/
def VERIFY_FUNCTION_SELECTOR : List Nat := [142, 118, 10, 254]

/-- Base transaction overhead constant `TX_GAS_COST` imported from
`ethereum_rust_blockchain::constants` (the standard 21000 base cost). -/
def TX_GAS_COST : Nat := 21000

/-- Largest value representable in a `u64`. -/
def U64_MAX : Nat := 2 ^ 64 - 1

/-- Models `U256::as_u64` from the `ethereum_types` crate: narrows a 256-bit
value to 64 bits and panics when the value does not fit; `none` is the panic. -/
def as_u64 (x : Nat) : Option Nat := if x < 2 ^ 64 then some x else none

/-- Models `u64::saturating_add`. -/
def saturating_add (a b : Nat) : Nat := min (a + b) U64_MAX

/-- Big-endian byte string of `n`, exactly `k` bytes wide (high bytes first;
truncates values at or above `2 ^ (8 * k)`). -/
def beBytes : Nat → Nat → List Nat
  | 0, _ => []
  | k + 1, n => beBytes k (n / 256) ++ [n % 256]

/-- Models `H256::from_low_u64_be` applied to `n as u64`: a 32-byte word whose
low (last) 8 bytes hold the value big-endian and whose high 24 bytes are 0. -/
def from_low_u64_be (n : Nat) : List Nat := beBytes 32 (n % 2 ^ 64)

/-- The externally observable events of one proposer run, in order: engine
calls, the storage read, settlement-layer transaction submissions, receipt
polls and receipt confirmations, and the inter-cycle sleep. -/
inductive Event where
  | engineForkchoice (head : Nat)
  | engineGetPayload (payload_id : Nat)
  | engineNewPayload (payload : Nat)
  | storageGetBlock (h : Nat)
  | sendTx (calldata : List Nat)
  | receiptPoll (txHash : Nat)
  | receiptFound (txHash : Nat)
  | sleepInterval
  deriving Repr, DecidableEq

/-- Outcome of one settlement-layer submission pipeline: success with the
transaction hash, a classified error, a process-terminating panic, or fuel
exhaustion (an artifact of embedding the unbounded polling loop). -/
inductive Outcome (α : Type) where
  | ok (a : α)
  | err (e : ProposerError)
  | panicked
  | outOfFuel
  deriving Repr, DecidableEq

/-- The fields of `EIP1559Transaction` that the proposer sets; the remaining
fields come from `Default::default()` and never vary here.  `toAddr` models
the source field `to` (`to` is a reserved token in Lean). -/
structure EIP1559Transaction where
  toAddr : Nat
  data : List Nat
  max_fee_per_gas : Nat
  nonce : Nat
  chain_id : Nat
  gas_limit : Nat
  deriving Repr, DecidableEq

/-- Oracle for the settlement-layer RPC client (`EthClient`), one answer per
call site within a single submission. -/
structure EthRpc where
  get_gas_price : Except String Nat
  get_nonce : Nat → Except String Nat
  get_chain_id : Except String Nat
  estimate_gas : EIP1559Transaction → Except String Nat
  send_eip1559_transaction : EIP1559Transaction → Except String Nat

/-- The proposer's configuration fields used by the submission path. -/
structure Proposer where
  on_chain_proposer_address : Nat
  l1_address : Nat
  deriving Repr, DecidableEq

/-- `Proposer::send_transaction_with_calldata`: builds the EIP-1559
transaction field by field in source order (gas price narrowed with `as_u64`,
nonce, chain id narrowed with `as_u64`), estimates gas on the built
transaction, sets `gas_limit` to the estimate plus `TX_GAS_COST`
(saturating), and broadcasts.  Any `Err` from the client propagates via `?`;
a failed `as_u64` narrowing panics. -/
def send_transaction_with_calldata (p : Proposer) (rpc : EthRpc)
    (calldata : List Nat) : Outcome Nat × List Event :=
  match rpc.get_gas_price with
  | .error e => (.err (.EthClientError e), [])
  | .ok gasPrice =>
    match as_u64 gasPrice with
    | none => (.panicked, [])
    | some gp =>
      match rpc.get_nonce p.l1_address with
      | .error e => (.err (.EthClientError e), [])
      | .ok nonceVal =>
        match rpc.get_chain_id with
        | .error e => (.err (.EthClientError e), [])
        | .ok chainId =>
          match as_u64 chainId with
          | none => (.panicked, [])
          | some cid =>
            let tx : EIP1559Transaction :=
              { toAddr := p.on_chain_proposer_address, data := calldata,
                max_fee_per_gas := gp, nonce := nonceVal, chain_id := cid,
                gas_limit := 0 }
            match rpc.estimate_gas tx with
            | .error e => (.err (.EthClientError e), [])
            | .ok g =>
              let tx2 := { tx with gas_limit := saturating_add g TX_GAS_COST }
              match rpc.send_eip1559_transaction tx2 with
              | .error e => (.err (.EthClientError e), [])
              | .ok txHash => (.ok txHash, [.sendTx calldata])

/-- Result of the receipt-polling loop: receipt found after `attempts` calls,
an RPC error after `attempts` calls, or fuel exhaustion. -/
inductive PollResult where
  | found (attempts : Nat)
  | failed (e : String) (attempts : Nat)
  | outOfFuel
  deriving Repr, DecidableEq

/-- The `while get_transaction_receipt(tx_hash).await?.is_none() \x7b sleep \x7d`
loop shared by `send_commitment` and `send_proof`.  `rcpt i` is the oracle's
answer to the `i`-th poll (0-based); `i` is the index of the next poll and the
fuel bounds the remaining polls.  An `Err` from the client exits the loop at
once via `?`; attempts are counted from the start of the loop. -/
def receipt_poll_loop (rcpt : Nat → Except String (Option Unit)) (txHash : Nat) :
    Nat → Nat → PollResult × List Event
  | _, 0 => (.outOfFuel, [])
  | i, fuel + 1 =>
    match rcpt i with
    | .error e => (.failed e (i + 1), [.receiptPoll txHash])
    | .ok (some _) => (.found (i + 1), [.receiptPoll txHash, .receiptFound txHash])
    | .ok none =>
      let r := receipt_poll_loop rcpt txHash (i + 1) fuel
      (r.1, .receiptPoll txHash :: r.2)

/-- The calldata built by `Proposer::send_commitment`: the fixed commit
selector followed by the 32 commitment bytes. -/
def commit_calldata (commitment : List Nat) : List Nat :=
  COMMIT_FUNCTION_SELECTOR ++ commitment

/-- The calldata built by `Proposer::send_proof`: the fixed verify selector,
the 32-byte word 0x20, the 32-byte big-endian proof length (`len() as u64`),
the proof bytes, then `32 - (len % 32)` zero bytes (`leading_zeros`). -/
def proof_calldata (block_proof : List Nat) : List Nat :=
  let base := VERIFY_FUNCTION_SELECTOR ++ from_low_u64_be 32
    ++ from_low_u64_be block_proof.length ++ block_proof
  let leading_zeros := 32 - base.length % 32
  base ++ List.replicate leading_zeros 0

/-- `Proposer::send_commitment`: build the commit calldata, submit it, then
poll for the receipt until it appears; return the commit transaction hash. -/
def send_commitment (p : Proposer) (rpc : EthRpc)
    (rcpt : Nat → Except String (Option Unit)) (fuel : Nat)
    (commitment : List Nat) : Outcome Nat × List Event :=
  let calldata := commit_calldata commitment
  match send_transaction_with_calldata p rpc calldata with
  | (.ok commitTxHash, tr) =>
    match receipt_poll_loop rcpt commitTxHash 0 fuel with
    | (.found _, tr2) => (.ok commitTxHash, tr ++ tr2)
    | (.failed e _, tr2) => (.err (.EthClientError e), tr ++ tr2)
    | (.outOfFuel, tr2) => (.outOfFuel, tr ++ tr2)
  | other => other

/-- `Proposer::send_proof`: build the verify calldata, submit it, then poll
for the receipt until it appears; return the verify transaction hash. -/
def send_proof (p : Proposer) (rpc : EthRpc)
    (rcpt : Nat → Except String (Option Unit)) (fuel : Nat)
    (block_proof : List Nat) : Outcome Nat × List Event :=
  let calldata := proof_calldata block_proof
  match send_transaction_with_calldata p rpc calldata with
  | (.ok verifyTxHash, tr) =>
    match receipt_poll_loop rcpt verifyTxHash 0 fuel with
    | (.found _, tr2) => (.ok verifyTxHash, tr ++ tr2)
    | (.failed e _, tr2) => (.err (.EthClientError e), tr ++ tr2)
    | (.outOfFuel, tr2) => (.outOfFuel, tr ++ tr2)
  | other => other

/-- Response to `engine_forkchoice_updated_v3`; the proposer only reads the
`payload_id` field. -/
structure ForkChoiceResponse where
  payload_id : Option Nat
  deriving Repr, DecidableEq

/-- Response to `engine_get_payload_v3`; the proposer only forwards the
`execution_payload` field (modelled as an opaque identifier). -/
structure ExecutionPayloadResponse where
  execution_payload : Nat
  deriving Repr, DecidableEq

/-- Response to `engine_new_payload_v3`; the proposer only reads the
`latest_valid_hash` field. -/
structure PayloadStatus where
  latest_valid_hash : Option Nat
  deriving Repr, DecidableEq

/-- The forkchoice state sent to the engine: head, safe and finalized hashes. -/
structure ForkChoiceState where
  head_block_hash : Nat
  safe_block_hash : Nat
  finalized_block_hash : Nat
  deriving Repr, DecidableEq

/-- Oracle for the execution-engine client (`EngineClient`), one answer per
call site within a single `produce_block`.  The payload attributes sent with
the forkchoice update only carry the wall-clock timestamp, which no claim
depends on, so they are not modelled. -/
structure EngineApi where
  engine_forkchoice_updated_v3 : ForkChoiceState → Except String ForkChoiceResponse
  engine_get_payload_v3 : Nat → Except String ExecutionPayloadResponse
  engine_new_payload_v3 : Nat → Except String PayloadStatus

/-- `Proposer::produce_block`: forkchoice update with head = safe = finalized,
extract the payload id, get the payload, send it back as a new payload, and
return the `latest_valid_hash`.  Each engine error or missing field becomes a
`FailedToProduceBlock` error with the source's message. -/
def produce_block (eng : EngineApi) (head_block_hash : Nat) :
    Except ProposerError Nat × List Event :=
  let fork_choice_state : ForkChoiceState :=
    { head_block_hash := head_block_hash, safe_block_hash := head_block_hash,
      finalized_block_hash := head_block_hash }
  match eng.engine_forkchoice_updated_v3 fork_choice_state with
  | .error e =>
    (.error (.FailedToProduceBlock ("forkchoiceUpdateV3: " ++ e)),
     [.engineForkchoice head_block_hash])
  | .ok fork_choice_response =>
    match fork_choice_response.payload_id with
    | none =>
      (.error (.FailedToProduceBlock "payload_id is None in ForkChoiceResponse"),
       [.engineForkchoice head_block_hash])
    | some payload_id =>
      match eng.engine_get_payload_v3 payload_id with
      | .error e =>
        (.error (.FailedToProduceBlock ("getPayloadV3: " ++ e)),
         [.engineForkchoice head_block_hash, .engineGetPayload payload_id])
      | .ok execution_payload_response =>
        match eng.engine_new_payload_v3
            execution_payload_response.execution_payload with
        | .error e =>
          (.error (.FailedToProduceBlock ("newPayloadV3: " ++ e)),
           [.engineForkchoice head_block_hash, .engineGetPayload payload_id,
            .engineNewPayload execution_payload_response.execution_payload])
        | .ok payload_status =>
          match payload_status.latest_valid_hash with
          | none =>
            (.error (.FailedToProduceBlock "latest_valid_hash is None in PayloadStatus"),
             [.engineForkchoice head_block_hash, .engineGetPayload payload_id,
              .engineNewPayload execution_payload_response.execution_payload])
          | some produced_block_hash =>
            (.ok produced_block_hash,
             [.engineForkchoice head_block_hash, .engineGetPayload payload_id,
              .engineNewPayload execution_payload_response.execution_payload])

/-- Oracle environment for one cycle of the production loop: the engine, the
local block store (blocks modelled as opaque identifiers), and separate RPC
and receipt oracles for the commit and proof submissions of the cycle. -/
structure CycleEnv where
  engine : EngineApi
  get_block_by_hash : Nat → Except String (Option Nat)
  commitRpc : EthRpc
  commitReceipt : Nat → Except String (Option Unit)
  proofRpc : EthRpc
  proofReceipt : Nat → Except String (Option Unit)

/-- Outcome of one iteration of the `loop` in `Proposer::start`: proceed to
the next iteration with the (possibly updated) head, exit the loop by
propagating an error via `?`, die by `panic!` (or a panicking conversion), or
run out of embedding fuel inside a submission. -/
inductive CycleOutcome where
  | continueWith (head : Nat)
  | exitErr (e : ProposerError)
  | fatalPanic
  | outOfFuel
  deriving Repr, DecidableEq

/-- One iteration of the `loop` in `Proposer::start`.  Source order:
`head_block_hash = self.produce_block(head_block_hash).await?;` first
OVERWRITES the loop variable with the produced hash (propagating errors via
`?`), and only then compares it with `H256::zero()`; on zero it `continue`s,
so the next iteration starts from the zero hash now stored in the variable.
Otherwise it reads the block from storage, computes
`commitment = keccak(block.encode_to_vec())`, runs `send_commitment` (a
failure is `panic!`), then `send_proof` on the empty placeholder proof
(`let proof = Vec::new()`; a failure is `panic!`), then sleeps.  `keccak` and
`encode_to_vec` are opaque parameters of the embedding. -/
def start_cycle (keccak : List Nat → List Nat) (encode_to_vec : Nat → List Nat)
    (p : Proposer) (env : CycleEnv) (fuel : Nat) (head_block_hash : Nat) :
    CycleOutcome × List Event :=
  match produce_block env.engine head_block_hash with
  | (.error e, tr) => (.exitErr e, tr)
  | (.ok h, tr) =>
    if h = 0 then (.continueWith h, tr)
    else
      match env.get_block_by_hash h with
      | .error e =>
        (.exitErr (.FailedToRetrieveBlockFromStorage e), tr ++ [.storageGetBlock h])
      | .ok none =>
        (.exitErr (.FailedToProduceBlock "Failed to get block by hash from storage"),
         tr ++ [.storageGetBlock h])
      | .ok (some block) =>
        let commitment := keccak (encode_to_vec block)
        match send_commitment p env.commitRpc env.commitReceipt fuel commitment with
        | (.ok _, trc) =>
          match send_proof p env.proofRpc env.proofReceipt fuel [] with
          | (.ok _, trp) =>
            (.continueWith h,
             tr ++ [.storageGetBlock h] ++ trc ++ trp ++ [.sleepInterval])
          | (.err _, trp) => (.fatalPanic, tr ++ [.storageGetBlock h] ++ trc ++ trp)
          | (.panicked, trp) => (.fatalPanic, tr ++ [.storageGetBlock h] ++ trc ++ trp)
          | (.outOfFuel, trp) => (.outOfFuel, tr ++ [.storageGetBlock h] ++ trc ++ trp)
        | (.err _, trc) => (.fatalPanic, tr ++ [.storageGetBlock h] ++ trc)
        | (.panicked, trc) => (.fatalPanic, tr ++ [.storageGetBlock h] ++ trc)
        | (.outOfFuel, trc) => (.outOfFuel, tr ++ [.storageGetBlock h] ++ trc)

/-- Outcome of a bounded unrolling of `Proposer::start`: still running with
some current head after the given number of iterations, exited with an error
(the function's `Result` return), died by `panic!`, or out of embedding fuel. -/
inductive LoopOutcome where
  | running (head : Nat)
  | exited (e : ProposerError)
  | fataled
  | outOfFuel
  deriving Repr, DecidableEq

/-- `Proposer::start`, unrolled for a given number of iterations: each
iteration consumes the next cycle environment; an error exits the loop, a
panic kills the task, otherwise the loop continues with the head the
iteration left in the loop variable.  Returns the concatenated event trace. -/
def start (keccak : List Nat → List Nat) (encode_to_vec : Nat → List Nat)
    (p : Proposer) (envs : Nat → CycleEnv) (fuel : Nat) (head_block_hash : Nat) :
    Nat → LoopOutcome × List Event
  | 0 => (.running head_block_hash, [])
  | n + 1 =>
    match start_cycle keccak encode_to_vec p (envs 0) fuel head_block_hash with
    | (.continueWith h, tr) =>
      let r := start keccak encode_to_vec p (fun k => envs (k + 1)) fuel h n
      (r.1, tr ++ r.2)
    | (.exitErr e, tr) => (.exited e, tr)
    | (.fatalPanic, tr) => (.fataled, tr)
    | (.outOfFuel, tr) => (.outOfFuel, tr)

/-! Concrete fixtures used by counterexamples and witnesses. -/

/-- A trivial stand-in for the opaque `keccak` parameter. -/
def keccak0 : List Nat → List Nat := fun _ => []

/-- A trivial stand-in for the opaque `encode_to_vec` parameter. -/
def enc0 : Nat → List Nat := fun _ => []

/-- A concrete proposer configuration. -/
def proposer0 : Proposer := ⟨0, 0⟩

/-- A settlement RPC oracle that answers every call successfully. -/
def rpcOk : EthRpc :=
  { get_gas_price := .ok 5, get_nonce := fun _ => .ok 0, get_chain_id := .ok 1,
    estimate_gas := fun _ => .ok 100,
    send_eip1559_transaction := fun _ => .ok 77 }

/-- A settlement RPC oracle whose broadcast is rejected. -/
def rpcRejects : EthRpc :=
  { rpcOk with send_eip1559_transaction := fun _ => .error "tx rejected" }

/-- A settlement RPC oracle whose reported gas price exceeds `u64::MAX`. -/
def rpcHugeGasPrice : EthRpc := { rpcOk with get_gas_price := .ok (2 ^ 64) }

/-- A receipt oracle that answers every poll with a receipt. -/
def rcptAlways : Nat → Except String (Option Unit) := fun _ => .ok (some ())

/-- An engine oracle whose `newPayload` always reports `latest_valid_hash = h`. -/
def engProduces (h : Nat) : EngineApi :=
  ⟨fun _ => .ok ⟨some 1⟩, fun _ => .ok ⟨7⟩, fun _ => .ok ⟨some h⟩⟩

/-- An engine oracle whose forkchoice update always fails. -/
def engFcuErr : EngineApi :=
  ⟨fun _ => .error "boom", fun _ => .ok ⟨7⟩, fun _ => .ok ⟨some 0⟩⟩

/-- A full cycle environment built from an engine oracle and two RPC oracles,
with block 3 in storage and receipts always available. -/
def envOf (eng : EngineApi) (rc pc : EthRpc) : CycleEnv :=
  { engine := eng, get_block_by_hash := fun _ => .ok (some 3),
    commitRpc := rc, commitReceipt := rcptAlways,
    proofRpc := pc, proofReceipt := rcptAlways }

/-! Helper lemmas about the embedded operations. -/

theorem beBytes_length (k : Nat) : ∀ n, (beBytes k n).length = k := by
  induction k with
  | zero => intro n; rfl
  | succ k ih => intro n; simp [beBytes, ih]

theorem from_low_u64_be_length (n : Nat) : (from_low_u64_be n).length = 32 := by
  simp [from_low_u64_be, beBytes_length]

theorem proof_calldata_base_length (P : List Nat) :
    (VERIFY_FUNCTION_SELECTOR ++ from_low_u64_be 32
      ++ from_low_u64_be P.length ++ P).length = 68 + P.length := by
  simp [VERIFY_FUNCTION_SELECTOR, from_low_u64_be_length]
  omega

theorem proof_calldata_eq (P : List Nat) :
    proof_calldata P =
      VERIFY_FUNCTION_SELECTOR ++ from_low_u64_be 32 ++ from_low_u64_be P.length
        ++ P ++ List.replicate (32 - (68 + P.length) % 32) 0 := by
  simp only [proof_calldata, proof_calldata_base_length]

theorem proof_calldata_length (P : List Nat) :
    (proof_calldata P).length = 68 + P.length + (32 - (68 + P.length) % 32) := by
  rw [proof_calldata_eq]
  simp [VERIFY_FUNCTION_SELECTOR, from_low_u64_be_length]
  omega

/-- C4 counterexample: for a proof of length 28 the pre-padding calldata
length 68 + 28 = 96 is already a multiple of 32, yet `send_proof` appends a
further 32 zero bytes (total 128), so the calldata is not the claimed
selector/offset/length/bytes layout with no padding. -/
theorem c4_counterexample :
    (68 + (List.replicate 28 7 : List Nat).length) % 32 = 0 ∧
    (proof_calldata (List.replicate 28 7)).length = 128 ∧
    proof_calldata (List.replicate 28 7) ≠
      VERIFY_FUNCTION_SELECTOR ++ from_low_u64_be 32 ++ from_low_u64_be 28 ++
        List.replicate 28 7 := by
  refine ⟨by simp, by rw [proof_calldata_length]; simp, ?_⟩
  intro h
  have hl := congrArg List.length h
  rw [proof_calldata_length] at hl
  simp [VERIFY_FUNCTION_SELECTOR, from_low_u64_be_length] at hl

/-- C4 (amended): `send_proof` builds the verify selector, the 32-byte word
0x20, the 32-byte big-endian length, the proof bytes, then exactly
`32 - ((68 + L) % 32)` zero bytes — between 1 and 32 of them, a full zero
word when 68 + L is already a multiple of 32 — and the total length is
always a multiple of 32. -/
theorem c4_proof_calldata_layout (P : List Nat) :
    proof_calldata P =
      VERIFY_FUNCTION_SELECTOR ++ from_low_u64_be 32 ++ from_low_u64_be P.length
        ++ P ++ List.replicate (32 - (68 + P.length) % 32) 0 ∧
    (proof_calldata P).length = 68 + P.length + (32 - (68 + P.length) % 32) ∧
    (proof_calldata P).length % 32 = 0 ∧
    1 ≤ 32 - (68 + P.length) % 32 ∧ 32 - (68 + P.length) % 32 ≤ 32 := by
  refine ⟨proof_calldata_eq P, proof_calldata_length P, ?_, by omega, by omega⟩
  rw [proof_calldata_length]
  omega

/-- C2 counterexample: when the engine's `newPayload` response carries
`latest_valid_hash = Some(zero)`, `produce_block` returns the zero sentinel
hash wrapped in a success value (`Ok(zero)`), for the valid head hash 5. -/
theorem c2_counterexample : (produce_block (engProduces 0) 5).1 = .ok 0 := by
  rfl

/-- C2 (amended): `produce_block` returns `Ok r` exactly when the engine path
succeeds end to end with `payload_id` present and `latest_valid_hash = Some r`
— including `r` = zero: the zero sentinel is passed through wrapped in
success, and the zero check is performed by the caller `start`, not here. -/
theorem c2_produce_block_ok_iff (eng : EngineApi) (head r : Nat) :
    (produce_block eng head).1 = .ok r ↔
      ∃ fr pid pr ps,
        eng.engine_forkchoice_updated_v3 ⟨head, head, head⟩ = .ok fr ∧
        fr.payload_id = some pid ∧
        eng.engine_get_payload_v3 pid = .ok pr ∧
        eng.engine_new_payload_v3 pr.execution_payload = .ok ps ∧
        ps.latest_valid_hash = some r := by
  constructor
  · intro h
    cases hfc : eng.engine_forkchoice_updated_v3 ⟨head, head, head⟩ with
    | error e => simp [produce_block, hfc] at h
    | ok fr =>
      cases hpid : fr.payload_id with
      | none => simp [produce_block, hfc, hpid] at h
      | some pid =>
        cases hgp : eng.engine_get_payload_v3 pid with
        | error e => simp [produce_block, hfc, hpid, hgp] at h
        | ok pr =>
          cases hnp : eng.engine_new_payload_v3 pr.execution_payload with
          | error e => simp [produce_block, hfc, hpid, hgp, hnp] at h
          | ok ps =>
            cases hlv : ps.latest_valid_hash with
            | none => simp [produce_block, hfc, hpid, hgp, hnp, hlv] at h
            | some r0 =>
              simp [produce_block, hfc, hpid, hgp, hnp, hlv] at h
              exact ⟨fr, pid, pr, ps, by simp [hfc], by simp [hpid],
                by simp [hgp], by simp [hnp], by simp [hlv, h]⟩
  · rintro ⟨fr, pid, pr, ps, hfc, hpid, hgp, hnp, hlv⟩
    simp [produce_block, hfc, hpid, hgp, hnp, hlv]

theorem as_u64_eq_none {x : Nat} (h : 2 ^ 64 ≤ x) : as_u64 x = none := by
  unfold as_u64
  rw [if_neg (by omega)]

theorem as_u64_eq_some {x : Nat} (h : x < 2 ^ 64) : as_u64 x = some x := by
  unfold as_u64
  rw [if_pos h]

/-- C10: `send_transaction_with_calldata` panics (terminates abnormally,
returning no classified error) when the fetched gas price, or the fetched
chain id, does not fit in a `u64`, because of the `as_u64` narrowing; when
both fetched values fit in 64 bits the panic branch is unreachable. -/
theorem c10_as_u64_narrowing (p : Proposer) (rpc : EthRpc) (cd : List Nat) :
    (∀ g, rpc.get_gas_price = .ok g → 2 ^ 64 ≤ g →
      send_transaction_with_calldata p rpc cd = (.panicked, [])) ∧
    (∀ g n c, rpc.get_gas_price = .ok g → g < 2 ^ 64 →
      rpc.get_nonce p.l1_address = .ok n →
      rpc.get_chain_id = .ok c → 2 ^ 64 ≤ c →
      send_transaction_with_calldata p rpc cd = (.panicked, [])) ∧
    ((∀ g, rpc.get_gas_price = .ok g → g < 2 ^ 64) →
     (∀ c, rpc.get_chain_id = .ok c → c < 2 ^ 64) →
     (send_transaction_with_calldata p rpc cd).1 ≠ .panicked) := by
  refine ⟨?_, ?_, ?_⟩
  · intro g hg hbig
    simp [send_transaction_with_calldata, hg, as_u64_eq_none hbig]
  · intro g n c hg hfit hn hc hbig
    simp [send_transaction_with_calldata, hg, as_u64_eq_some hfit, hn, hc,
      as_u64_eq_none hbig]
  · intro hgas hcid
    cases hg : rpc.get_gas_price with
    | error e => simp [send_transaction_with_calldata, hg]
    | ok g =>
      have hgfit := as_u64_eq_some (hgas g hg)
      cases hn : rpc.get_nonce p.l1_address with
      | error e => simp [send_transaction_with_calldata, hg, hgfit, hn]
      | ok n =>
        cases hc : rpc.get_chain_id with
        | error e =>
          simp [send_transaction_with_calldata, hg, hgfit, hn, hc]
        | ok c =>
          have hcfit := as_u64_eq_some (hcid c hc)
          cases hest : rpc.estimate_gas
              { toAddr := p.on_chain_proposer_address, data := cd,
                max_fee_per_gas := g, nonce := n, chain_id := c,
                gas_limit := 0 } with
          | error e =>
            simp [send_transaction_with_calldata, hg, hgfit, hn, hc,
              hcfit, hest]
          | ok gas =>
            cases hsend : rpc.send_eip1559_transaction
                { toAddr := p.on_chain_proposer_address, data := cd,
                  max_fee_per_gas := g, nonce := n, chain_id := c,
                  gas_limit := saturating_add gas TX_GAS_COST } with
            | error e =>
              simp [send_transaction_with_calldata, hg, hgfit, hn, hc,
                hcfit, hest, hsend]
            | ok txh =>
              simp [send_transaction_with_calldata, hg, hgfit, hn, hc,
                hcfit, hest, hsend]

/-- C10 witness: with a settlement RPC whose gas price is `2 ^ 64` the
submission panics, and with the well-behaved RPC it does not panic. -/
theorem c10_witness :
    send_transaction_with_calldata proposer0 rpcHugeGasPrice [] =
      (.panicked, []) ∧
    (send_transaction_with_calldata proposer0 rpcOk []).1 ≠ .panicked := by
  constructor
  · exact (c10_as_u64_narrowing proposer0 rpcHugeGasPrice []).1 (2 ^ 64) rfl
      (le_refl _)
  · exact (c10_as_u64_narrowing proposer0 rpcOk []).2.2
      (fun g hg => by cases hg; decide) (fun c hc => by cases hc; decide)

theorem receipt_poll_loop_found (rcpt : Nat → Except String (Option Unit))
    (txh N : Nat) (hsome : rcpt N = .ok (some ())) :
    ∀ fuel i, i ≤ N → N + 1 ≤ i + fuel →
      (∀ k, k < N → rcpt k = .ok none) →
      receipt_poll_loop rcpt txh i fuel =
        (.found (N + 1),
         List.replicate (N + 1 - i) (.receiptPoll txh) ++ [.receiptFound txh]) := by
  intro fuel
  induction fuel with
  | zero => intro i h1 h2 _; omega
  | succ fuel ih =>
    intro i h1 h2 hnone
    rcases Nat.lt_or_ge i N with hi | hi
    · have hrec := ih (i + 1) (by omega) (by omega) hnone
      have hni : rcpt i = .ok none := hnone i hi
      have hrep : N + 1 - i = (N + 1 - (i + 1)) + 1 := by omega
      simp [receipt_poll_loop, hni, hrec, hrep, List.replicate_succ]
    · have hiN : i = N := by omega
      subst hiN
      simp [receipt_poll_loop, hsome, List.replicate_succ]

theorem receipt_poll_loop_error (rcpt : Nat → Except String (Option Unit))
    (txh N : Nat) (e : String) (herr : rcpt N = .error e) :
    ∀ fuel i, i ≤ N → N + 1 ≤ i + fuel →
      (∀ k, k < N → rcpt k = .ok none) →
      receipt_poll_loop rcpt txh i fuel =
        (.failed e (N + 1), List.replicate (N + 1 - i) (.receiptPoll txh)) := by
  intro fuel
  induction fuel with
  | zero => intro i h1 h2 _; omega
  | succ fuel ih =>
    intro i h1 h2 hnone
    rcases Nat.lt_or_ge i N with hi | hi
    · have hrec := ih (i + 1) (by omega) (by omega) hnone
      have hni : rcpt i = .ok none := hnone i hi
      have hrep : N + 1 - i = (N + 1 - (i + 1)) + 1 := by omega
      simp [receipt_poll_loop, hni, hrec, hrep, List.replicate_succ]
    · have hiN : i = N := by omega
      subst hiN
      simp [receipt_poll_loop, herr, List.replicate_succ]

/-- C8: if the settlement client reports no receipt on exactly the first N
polls and a receipt on poll N + 1, then (for any sufficient fuel) the polling
loop succeeds after exactly N + 1 attempts, and `send_commitment` /
`send_proof` — once their submission returned a transaction hash — return
that hash successfully after exactly N + 1 receipt polls. -/
theorem c8_receipt_polling_convergence (N : Nat)
    (rcpt : Nat → Except String (Option Unit))
    (hnone : ∀ k, k < N → rcpt k = .ok none)
    (hsome : rcpt N = .ok (some ())) :
    ∀ fuel, N + 1 ≤ fuel →
      (∀ txh, receipt_poll_loop rcpt txh 0 fuel =
        (.found (N + 1),
         List.replicate (N + 1) (.receiptPoll txh) ++ [.receiptFound txh])) ∧
      (∀ p rpc C txh tr1,
        send_transaction_with_calldata p rpc (commit_calldata C) =
          (.ok txh, tr1) →
        send_commitment p rpc rcpt fuel C =
          (.ok txh, tr1 ++ (List.replicate (N + 1) (.receiptPoll txh)
            ++ [.receiptFound txh]))) ∧
      (∀ p rpc P txh tr1,
        send_transaction_with_calldata p rpc (proof_calldata P) =
          (.ok txh, tr1) →
        send_proof p rpc rcpt fuel P =
          (.ok txh, tr1 ++ (List.replicate (N + 1) (.receiptPoll txh)
            ++ [.receiptFound txh]))) := by
  intro fuel hfuel
  have hpoll : ∀ txh, receipt_poll_loop rcpt txh 0 fuel =
      (.found (N + 1),
       List.replicate (N + 1) (.receiptPoll txh) ++ [.receiptFound txh]) := by
    intro txh
    simpa using receipt_poll_loop_found rcpt txh N hsome fuel 0 (by omega)
      (by omega) hnone
  refine ⟨hpoll, ?_, ?_⟩
  · intro p rpc C txh tr1 hsend
    simp [send_commitment, hsend, hpoll txh]
  · intro p rpc P txh tr1 hsend
    simp [send_proof, hsend, hpoll txh]

/-- C8 witness: with a client reporting no receipt on the first 2 polls and a
receipt on the third, the pipeline converges after exactly 3 attempts. -/
theorem c8_witness :
    (receipt_poll_loop
        (fun i => if i < 2 then .ok none else .ok (some ())) 77 0 5).1 =
      .found 3 ∧
    send_commitment proposer0 rpcOk
        (fun i => if i < 2 then .ok none else .ok (some ())) 5
        (List.replicate 32 9) =
      (.ok 77, [.sendTx (commit_calldata (List.replicate 32 9))]
        ++ (List.replicate 3 (.receiptPoll 77) ++ [.receiptFound 77])) := by
  have h := c8_receipt_polling_convergence 2
    (fun i => if i < 2 then .ok none else .ok (some ()))
    (fun k hk => by simp [hk]) (by simp) 5 (by omega)
  constructor
  · rw [h.1 77]
  · exact h.2.1 proposer0 rpcOk (List.replicate 32 9) 77
      [.sendTx (commit_calldata (List.replicate 32 9))] rfl

/-- C9: if a receipt poll returns an RPC error (after N error-free empty
polls), the polling loop aborts at that poll with that error rather than
continuing, and `send_commitment` / `send_proof` — once their submission
returned a transaction hash — return the error to the caller after exactly
N + 1 polls, with no receipt confirmation. -/
theorem c9_receipt_poll_error_aborts (N : Nat) (e : String)
    (rcpt : Nat → Except String (Option Unit))
    (hnone : ∀ k, k < N → rcpt k = .ok none)
    (herr : rcpt N = .error e) :
    ∀ fuel, N + 1 ≤ fuel →
      (∀ txh, receipt_poll_loop rcpt txh 0 fuel =
        (.failed e (N + 1), List.replicate (N + 1) (.receiptPoll txh))) ∧
      (∀ p rpc C txh tr1,
        send_transaction_with_calldata p rpc (commit_calldata C) =
          (.ok txh, tr1) →
        send_commitment p rpc rcpt fuel C =
          (.err (.EthClientError e),
           tr1 ++ List.replicate (N + 1) (.receiptPoll txh))) ∧
      (∀ p rpc P txh tr1,
        send_transaction_with_calldata p rpc (proof_calldata P) =
          (.ok txh, tr1) →
        send_proof p rpc rcpt fuel P =
          (.err (.EthClientError e),
           tr1 ++ List.replicate (N + 1) (.receiptPoll txh))) := by
  intro fuel hfuel
  have hpoll : ∀ txh, receipt_poll_loop rcpt txh 0 fuel =
      (.failed e (N + 1), List.replicate (N + 1) (.receiptPoll txh)) := by
    intro txh
    simpa using receipt_poll_loop_error rcpt txh N e herr fuel 0 (by omega)
      (by omega) hnone
  refine ⟨hpoll, ?_, ?_⟩
  · intro p rpc C txh tr1 hsend
    simp [send_commitment, hsend, hpoll txh]
  · intro p rpc P txh tr1 hsend
    simp [send_proof, hsend, hpoll txh]

/-- C9 witness: with a client whose first poll reports no receipt and whose
second poll fails, `send_commitment` returns the error after exactly 2 polls. -/
theorem c9_witness :
    send_commitment proposer0 rpcOk
        (fun i => if i < 1 then .ok none else .error "rpc down") 5
        (List.replicate 32 9) =
      (.err (.EthClientError "rpc down"),
       [.sendTx (commit_calldata (List.replicate 32 9))]
         ++ List.replicate 2 (.receiptPoll 77)) := by
  exact (c9_receipt_poll_error_aborts 1 "rpc down"
      (fun i => if i < 1 then .ok none else .error "rpc down")
      (fun k hk => by simp [hk]) (by simp) 5 (by omega)).2.1
    proposer0 rpcOk (List.replicate 32 9) 77
    [.sendTx (commit_calldata (List.replicate 32 9))] rfl

/-- C1: evaluation at the failing input.  Starting from head 5 with an engine
whose `newPayload` reports `latest_valid_hash = Some(zero)`, the cycle ends
with the loop variable holding 0 — the head HAS been set to the zero sentinel
(the assignment happens before the zero check) — and the next loop iteration
calls the engine's forkchoice update with head 0, not with the head 5 the
failed cycle started with. -/
theorem c1_zero_result_overwrites_head :
    start_cycle keccak0 enc0 proposer0 (envOf (engProduces 0) rpcOk rpcOk) 0 5 =
      (.continueWith 0,
       [.engineForkchoice 5, .engineGetPayload 1, .engineNewPayload 7]) ∧
    start keccak0 enc0 proposer0 (fun _ => envOf (engProduces 0) rpcOk rpcOk)
        0 5 2 =
      (.running 0,
       [.engineForkchoice 5, .engineGetPayload 1, .engineNewPayload 7,
        .engineForkchoice 0, .engineGetPayload 1, .engineNewPayload 7]) := by
  exact ⟨rfl, rfl⟩

/-- C3 counterexample: with an engine whose forkchoice update fails, the loop
in `start` does NOT continue and retry on the next pass — given a budget of 3
iterations it exits after the very first `produce_block` with the propagated
error, having made exactly one engine call. -/
theorem c3_counterexample :
    start keccak0 enc0 proposer0 (fun _ => envOf engFcuErr rpcOk rpcOk) 0 5 3 =
      (.exited (.FailedToProduceBlock "forkchoiceUpdateV3: boom"),
       [.engineForkchoice 5]) := by
  rfl

/-- C3 (amended): when `produce_block` fails — any EngineCallFailed-class
error — the `?` operator propagates the error out of the loop: `start`
returns that error at once, its trace is exactly the failed production's
trace, and no further iterations or engine calls occur. -/
theorem c3_engine_error_exits_loop (keccak : List Nat → List Nat)
    (encode_to_vec : Nat → List Nat) (p : Proposer) (envs : Nat → CycleEnv)
    (fuel head n : Nat) (e : ProposerError) (tr : List Event)
    (h : produce_block (envs 0).engine head = (.error e, tr)) :
    start keccak encode_to_vec p envs fuel head (n + 1) = (.exited e, tr) := by
  simp [start, start_cycle, h]

/-- C3 witness for the amended theorem: the forkchoice-failing engine makes
`start` exit with the propagated error whatever the iteration budget is. -/
theorem c3_witness :
    start keccak0 enc0 proposer0 (fun _ => envOf engFcuErr rpcOk rpcOk) 0 5 8 =
      (.exited (.FailedToProduceBlock "forkchoiceUpdateV3: boom"),
       [.engineForkchoice 5]) := by
  exact c3_engine_error_exits_loop keccak0 enc0 proposer0
    (fun _ => envOf engFcuErr rpcOk rpcOk) 0 5 7
    (.FailedToProduceBlock "forkchoiceUpdateV3: boom")
    [.engineForkchoice 5] rfl

/-- C7: if, in the first cycle, `send_commitment` returns an error (for
example a rejected transaction), or `send_commitment` succeeds and
`send_proof` returns an error, the task dies by `panic!`: whatever iteration
budget remains, `start` ends `fataled` and its whole trace is exactly the
failed cycle's trace — no further loop iterations and no further engine calls
happen after the failure. -/
theorem c7_submission_failure_is_fatal (keccak : List Nat → List Nat)
    (encode_to_vec : Nat → List Nat) (p : Proposer) (envs : Nat → CycleEnv)
    (fuel head n h b : Nat) (trP : List Event)
    (hprod : produce_block (envs 0).engine head = (.ok h, trP))
    (hh : h ≠ 0)
    (hstore : (envs 0).get_block_by_hash h = .ok (some b)) :
    (∀ e trC,
      send_commitment p (envs 0).commitRpc (envs 0).commitReceipt fuel
        (keccak (encode_to_vec b)) = (.err e, trC) →
      start keccak encode_to_vec p envs fuel head (n + 1) =
        (.fataled, trP ++ [.storageGetBlock h] ++ trC)) ∧
    (∀ ctx trC e trD,
      send_commitment p (envs 0).commitRpc (envs 0).commitReceipt fuel
        (keccak (encode_to_vec b)) = (.ok ctx, trC) →
      send_proof p (envs 0).proofRpc (envs 0).proofReceipt fuel [] =
        (.err e, trD) →
      start keccak encode_to_vec p envs fuel head (n + 1) =
        (.fataled, trP ++ [.storageGetBlock h] ++ trC ++ trD)) := by
  constructor
  · intro e trC hsc
    simp [start, start_cycle, hprod, hh, hstore, hsc]
  · intro ctx trC e trD hsc hsp
    simp [start, start_cycle, hprod, hh, hstore, hsc, hsp]

/-- C7 witness: with a commit-path RPC that rejects the broadcast, the task
ends `fataled` after the failed cycle with no further engine calls. -/
theorem c7_witness :
    start keccak0 enc0 proposer0
        (fun _ => envOf (engProduces 9) rpcRejects rpcOk) 3 5 4 =
      (.fataled,
       [.engineForkchoice 5, .engineGetPayload 1, .engineNewPayload 7]
         ++ [.storageGetBlock 9] ++ []) := by
  exact (c7_submission_failure_is_fatal keccak0 enc0 proposer0
      (fun _ => envOf (engProduces 9) rpcRejects rpcOk) 3 5 3 9 3
      [.engineForkchoice 5, .engineGetPayload 1, .engineNewPayload 7]
      rfl (by decide) rfl).1
    (.EthClientError "tx rejected") [] rfl

theorem commit_calldata_take4 (C : List Nat) :
    (commit_calldata C).take 4 = COMMIT_FUNCTION_SELECTOR := rfl

theorem proof_calldata_take4 (P : List Nat) :
    (proof_calldata P).take 4 = VERIFY_FUNCTION_SELECTOR := rfl

theorem selectors_distinct :
    COMMIT_FUNCTION_SELECTOR ≠ VERIFY_FUNCTION_SELECTOR := by decide

theorem send_transaction_trace (p : Proposer) (rpc : EthRpc) (cd : List Nat)
    (out : Outcome Nat) (tr : List Event)
    (h : send_transaction_with_calldata p rpc cd = (out, tr)) :
    ((∃ e, out = .err e) ∧ tr = []) ∨ (out = .panicked ∧ tr = []) ∨
      (∃ txh, out = .ok txh ∧ tr = [.sendTx cd]) := by
  unfold send_transaction_with_calldata at h
  repeat'
    first
      | split at h
      | (simp only [] at h)
  all_goals (injection h with h1 h2; subst h1; subst h2; simp)

theorem receipt_poll_loop_trace (rcpt : Nat → Except String (Option Unit))
    (txh : Nat) : ∀ fuel i res tr,
    receipt_poll_loop rcpt txh i fuel = (res, tr) →
    ∃ m, tr = List.replicate m (.receiptPoll txh) ++
      (match res with | .found _ => [.receiptFound txh] | _ => []) := by
  intro fuel
  induction fuel with
  | zero =>
    intro i res tr h
    injection h with h1 h2; subst h1; subst h2
    exact ⟨0, rfl⟩
  | succ fuel ih =>
    intro i res tr h
    unfold receipt_poll_loop at h
    cases hr : rcpt i with
    | error e =>
      rw [hr] at h
      injection h with h1 h2; subst h1; subst h2
      exact ⟨1, rfl⟩
    | ok o =>
      cases o with
      | some u =>
        rw [hr] at h
        injection h with h1 h2; subst h1; subst h2
        exact ⟨1, rfl⟩
      | none =>
        rw [hr] at h
        rcases hrec : receipt_poll_loop rcpt txh (i + 1) fuel with ⟨res', tr'⟩
        rw [hrec] at h
        injection h with h1 h2; subst h1; subst h2
        obtain ⟨m, hm⟩ := ih (i + 1) res' tr' hrec
        exact ⟨m + 1, by simp [hm, List.replicate_succ]⟩

theorem send_commitment_ok_trace (p : Proposer) (rpc : EthRpc)
    (rcpt : Nat → Except String (Option Unit)) (fuel : Nat) (C : List Nat)
    (txh : Nat) (tr : List Event)
    (h : send_commitment p rpc rcpt fuel C = (.ok txh, tr)) :
    ∃ m, tr = .sendTx (commit_calldata C) ::
      (List.replicate m (.receiptPoll txh) ++ [.receiptFound txh]) := by
  simp only [send_commitment] at h
  rcases h1 : send_transaction_with_calldata p rpc (commit_calldata C)
    with ⟨o1, tr1⟩
  rw [h1] at h
  cases o1 with
  | ok c =>
    simp only [] at h
    rcases h2 : receipt_poll_loop rcpt c 0 fuel with ⟨r2, tr2⟩
    rw [h2] at h
    cases r2 with
    | found a =>
      simp only [] at h
      injection h with h1' h2'
      injection h1' with h1'
      subst h1'; subst h2'
      obtain ⟨m, hm⟩ := receipt_poll_loop_trace rcpt c fuel 0 (.found a) tr2 h2
      rcases send_transaction_trace p rpc (commit_calldata C) (.ok c) tr1 h1
        with ⟨⟨e, he⟩, _⟩ | ⟨he, _⟩ | ⟨t, ht, htr⟩
      · cases he
      · cases he
      · exact ⟨m, by simp [htr, hm]⟩
    | failed e a => simp at h
    | outOfFuel => simp at h
  | err e => simp at h
  | panicked => simp at h
  | outOfFuel => simp at h

theorem send_commitment_any_trace (p : Proposer) (rpc : EthRpc)
    (rcpt : Nat → Except String (Option Unit)) (fuel : Nat) (C : List Nat)
    (out : Outcome Nat) (tr : List Event)
    (h : send_commitment p rpc rcpt fuel C = (out, tr)) :
    tr = [] ∨ ∃ tail, tr = .sendTx (commit_calldata C) :: tail ∧
      ∀ cd, Event.sendTx cd ∉ tail := by
  simp only [send_commitment] at h
  rcases h1 : send_transaction_with_calldata p rpc (commit_calldata C)
    with ⟨o1, tr1⟩
  rw [h1] at h
  have htr1 := send_transaction_trace p rpc (commit_calldata C) o1 tr1 h1
  cases o1 with
  | ok c =>
    simp only [] at h
    rcases h2 : receipt_poll_loop rcpt c 0 fuel with ⟨r2, tr2⟩
    rw [h2] at h
    obtain ⟨m, hm⟩ := receipt_poll_loop_trace rcpt c fuel 0 r2 tr2 h2
    have htr1' : tr1 = [.sendTx (commit_calldata C)] := by
      rcases htr1 with ⟨⟨e, he⟩, _⟩ | ⟨he, _⟩ | ⟨t, _, htr⟩
      · cases he
      · cases he
      · exact htr
    have hnosend : ∀ cd, Event.sendTx cd ∉ tr2 := by
      intro cd hmem
      rw [hm] at hmem
      rcases List.mem_append.1 hmem with hmem | hmem
      · exact absurd (List.eq_of_mem_replicate hmem) (by simp)
      · cases r2 <;> simp at hmem
    cases r2 with
    | found a =>
      simp only [] at h
      injection h with h1' h2'; subst h2'
      exact .inr ⟨tr2, by simp [htr1'], hnosend⟩
    | failed e a =>
      simp only [] at h
      injection h with h1' h2'; subst h2'
      exact .inr ⟨tr2, by simp [htr1'], hnosend⟩
    | outOfFuel =>
      simp only [] at h
      injection h with h1' h2'; subst h2'
      exact .inr ⟨tr2, by simp [htr1'], hnosend⟩
  | err e =>
    simp only [] at h
    injection h with h1' h2'; subst h2'
    rcases htr1 with ⟨_, htr⟩ | ⟨he, _⟩ | ⟨t, ht, _⟩
    · exact .inl htr
    · cases he
    · cases ht
  | panicked =>
    simp only [] at h
    injection h with h1' h2'; subst h2'
    rcases htr1 with ⟨⟨e, he⟩, _⟩ | ⟨_, htr⟩ | ⟨t, ht, _⟩
    · cases he
    · exact .inl htr
    · cases ht
  | outOfFuel =>
    simp only [] at h
    injection h with h1' h2'; subst h2'
    rcases htr1 with ⟨⟨e, he⟩, _⟩ | ⟨he, _⟩ | ⟨t, ht, _⟩
    · cases he
    · cases he
    · cases ht

theorem send_proof_any_trace (p : Proposer) (rpc : EthRpc)
    (rcpt : Nat → Except String (Option Unit)) (fuel : Nat) (P : List Nat)
    (out : Outcome Nat) (tr : List Event)
    (h : send_proof p rpc rcpt fuel P = (out, tr)) :
    tr = [] ∨ ∃ tail, tr = .sendTx (proof_calldata P) :: tail ∧
      ∀ cd, Event.sendTx cd ∉ tail := by
  simp only [send_proof] at h
  rcases h1 : send_transaction_with_calldata p rpc (proof_calldata P)
    with ⟨o1, tr1⟩
  rw [h1] at h
  have htr1 := send_transaction_trace p rpc (proof_calldata P) o1 tr1 h1
  cases o1 with
  | ok c =>
    simp only [] at h
    rcases h2 : receipt_poll_loop rcpt c 0 fuel with ⟨r2, tr2⟩
    rw [h2] at h
    obtain ⟨m, hm⟩ := receipt_poll_loop_trace rcpt c fuel 0 r2 tr2 h2
    have htr1' : tr1 = [.sendTx (proof_calldata P)] := by
      rcases htr1 with ⟨⟨e, he⟩, _⟩ | ⟨he, _⟩ | ⟨t, _, htr⟩
      · cases he
      · cases he
      · exact htr
    have hnosend : ∀ cd, Event.sendTx cd ∉ tr2 := by
      intro cd hmem
      rw [hm] at hmem
      rcases List.mem_append.1 hmem with hmem | hmem
      · exact absurd (List.eq_of_mem_replicate hmem) (by simp)
      · cases r2 <;> simp at hmem
    cases r2 with
    | found a =>
      simp only [] at h
      injection h with h1' h2'; subst h2'
      exact .inr ⟨tr2, by simp [htr1'], hnosend⟩
    | failed e a =>
      simp only [] at h
      injection h with h1' h2'; subst h2'
      exact .inr ⟨tr2, by simp [htr1'], hnosend⟩
    | outOfFuel =>
      simp only [] at h
      injection h with h1' h2'; subst h2'
      exact .inr ⟨tr2, by simp [htr1'], hnosend⟩
  | err e =>
    simp only [] at h
    injection h with h1' h2'; subst h2'
    rcases htr1 with ⟨_, htr⟩ | ⟨he, _⟩ | ⟨t, ht, _⟩
    · exact .inl htr
    · cases he
    · cases ht
  | panicked =>
    simp only [] at h
    injection h with h1' h2'; subst h2'
    rcases htr1 with ⟨⟨e, he⟩, _⟩ | ⟨_, htr⟩ | ⟨t, ht, _⟩
    · cases he
    · exact .inl htr
    · cases ht
  | outOfFuel =>
    simp only [] at h
    injection h with h1' h2'; subst h2'
    rcases htr1 with ⟨⟨e, he⟩, _⟩ | ⟨he, _⟩ | ⟨t, ht, _⟩
    · cases he
    · cases he
    · cases ht

theorem produce_block_no_sendTx (eng : EngineApi) (head : Nat)
    (res : Except ProposerError Nat) (tr : List Event)
    (h : produce_block eng head = (res, tr)) :
    ∀ cd, Event.sendTx cd ∉ tr := by
  intro cd
  unfold produce_block at h
  repeat'
    first
      | split at h
      | (simp only [] at h)
  all_goals (injection h with h1 h2; subst h2; simp)

theorem split_unique {α : Type} (Q : α → Prop) :
    ∀ (A : List α) (e : α) (B l1 : List α) (f : α) (l2 : List α),
      A ++ e :: B = l1 ++ f :: l2 → Q e → Q f →
      (∀ a ∈ A, ¬ Q a) → (∀ b ∈ B, ¬ Q b) →
      l1 = A ∧ f = e ∧ l2 = B := by
  intro A
  induction A with
  | nil =>
    intro e B l1 f l2 heq hQe hQf hA hB
    cases l1 with
    | nil =>
      simp only [List.nil_append] at heq
      injection heq with h1 h2
      exact ⟨rfl, h1.symm, h2.symm⟩
    | cons x l1' =>
      simp only [List.nil_append, List.cons_append] at heq
      injection heq with h1 h2
      exact absurd hQf (hB f (by rw [h2]; simp))
  | cons a A' ih =>
    intro e B l1 f l2 heq hQe hQf hA hB
    cases l1 with
    | nil =>
      simp only [List.nil_append, List.cons_append] at heq
      injection heq with h1 h2
      exact absurd hQf (h1 ▸ hA a (by simp))
    | cons x l1' =>
      simp only [List.cons_append] at heq
      injection heq with h1 h2
      obtain ⟨g1, g2, g3⟩ := ih e B l1' f l2 h2 hQe hQf
        (fun y hy => hA y (by simp [hy])) hB
      exact ⟨by rw [g1, h1], g2, g3⟩

theorem send_commitment_mem_sendTx (p : Proposer) (rpc : EthRpc)
    (rcpt : Nat → Except String (Option Unit)) (fuel : Nat) (C : List Nat)
    (out : Outcome Nat) (tr : List Event) (cd : List Nat)
    (h : send_commitment p rpc rcpt fuel C = (out, tr))
    (hmem : Event.sendTx cd ∈ tr) : cd = commit_calldata C := by
  rcases send_commitment_any_trace p rpc rcpt fuel C out tr h with
    rfl | ⟨tail, rfl, hno⟩
  · simp at hmem
  · rcases List.mem_cons.1 hmem with heq | hmem
    · injection heq
    · exact absurd hmem (hno cd)

theorem send_proof_mem_sendTx (p : Proposer) (rpc : EthRpc)
    (rcpt : Nat → Except String (Option Unit)) (fuel : Nat) (P : List Nat)
    (out : Outcome Nat) (tr : List Event) (cd : List Nat)
    (h : send_proof p rpc rcpt fuel P = (out, tr))
    (hmem : Event.sendTx cd ∈ tr) : cd = proof_calldata P := by
  rcases send_proof_any_trace p rpc rcpt fuel P out tr h with
    rfl | ⟨tail, rfl, hno⟩
  · simp at hmem
  · rcases List.mem_cons.1 hmem with heq | hmem
    · injection heq
    · exact absurd hmem (hno cd)

/-- C5: the commit calldata is exactly the fixed commit selector followed by
the 32 commitment bytes (36 bytes total), and within a production cycle that
reached block `b` the commitment actually submitted — the calldata of every
commit-selector transaction submission in the cycle's trace — is
`keccak(encode_to_vec(b))`, the hash of the block's canonical RLP
serialization (so identical blocks yield identical commitments). -/
theorem c5_commit_calldata_layout (C : List Nat) (hC : C.length = 32)
    (keccak : List Nat → List Nat) (encode_to_vec : Nat → List Nat)
    (p : Proposer) (env : CycleEnv) (fuel head h b : Nat)
    (trP tr : List Event) (out : CycleOutcome)
    (hprod : produce_block env.engine head = (.ok h, trP)) (hh : h ≠ 0)
    (hstore : env.get_block_by_hash h = .ok (some b))
    (hcycle : start_cycle keccak encode_to_vec p env fuel head = (out, tr)) :
    commit_calldata C = COMMIT_FUNCTION_SELECTOR ++ C ∧
    (commit_calldata C).length = 36 ∧
    (∀ cd, Event.sendTx cd ∈ tr →
      cd.take 4 = COMMIT_FUNCTION_SELECTOR →
      cd = commit_calldata (keccak (encode_to_vec b))) := by
  refine ⟨rfl, by simp [commit_calldata, COMMIT_FUNCTION_SELECTOR, hC], ?_⟩
  unfold start_cycle at hcycle
  rw [hprod] at hcycle
  simp only [] at hcycle
  rw [if_neg hh, hstore] at hcycle
  simp only [] at hcycle
  rcases hsc : send_commitment p env.commitRpc env.commitReceipt fuel
    (keccak (encode_to_vec b)) with ⟨oc, trc⟩
  rw [hsc] at hcycle
  have hcommit : ∀ cd, Event.sendTx cd ∈ trc →
      cd = commit_calldata (keccak (encode_to_vec b)) :=
    fun cd hm => send_commitment_mem_sendTx p env.commitRpc env.commitReceipt
      fuel (keccak (encode_to_vec b)) oc trc cd hsc hm
  have hprodno : ∀ cd, Event.sendTx cd ∉ trP :=
    produce_block_no_sendTx env.engine head (.ok h) trP hprod
  cases oc with
  | ok ctx =>
    simp only [] at hcycle
    rcases hsp : send_proof p env.proofRpc env.proofReceipt fuel []
      with ⟨op, trp⟩
    rw [hsp] at hcycle
    have hproof : ∀ cd, Event.sendTx cd ∈ trp → cd = proof_calldata [] :=
      fun cd hm => send_proof_mem_sendTx p env.proofRpc env.proofReceipt
        fuel [] op trp cd hsp hm
    have hkill : ∀ cd, Event.sendTx cd ∈ trp →
        cd.take 4 = COMMIT_FUNCTION_SELECTOR → False := by
      intro cd hm htake
      rw [hproof cd hm, proof_calldata_take4] at htake
      exact absurd htake (by decide)
    cases op with
    | ok ptx =>
      simp only [] at hcycle
      injection hcycle with hc1 hc2
      subst hc2
      intro cd hmem htake
      simp only [List.mem_append, List.mem_singleton] at hmem
      rcases hmem with ⟨⟨⟨hm | hm⟩ | hm⟩ | hm⟩ | hm
      · exact absurd hm (hprodno cd)
      · simp at hm
      · exact hcommit cd hm
      · exact absurd (hkill cd hm htake) not_false
      · simp at hm
    | err e =>
      simp only [] at hcycle
      injection hcycle with hc1 hc2
      subst hc2
      intro cd hmem htake
      simp only [List.mem_append, List.mem_singleton] at hmem
      rcases hmem with ⟨⟨hm | hm⟩ | hm⟩ | hm
      · exact absurd hm (hprodno cd)
      · simp at hm
      · exact hcommit cd hm
      · exact absurd (hkill cd hm htake) not_false
    | panicked =>
      simp only [] at hcycle
      injection hcycle with hc1 hc2
      subst hc2
      intro cd hmem htake
      simp only [List.mem_append, List.mem_singleton] at hmem
      rcases hmem with ⟨⟨hm | hm⟩ | hm⟩ | hm
      · exact absurd hm (hprodno cd)
      · simp at hm
      · exact hcommit cd hm
      · exact absurd (hkill cd hm htake) not_false
    | outOfFuel =>
      simp only [] at hcycle
      injection hcycle with hc1 hc2
      subst hc2
      intro cd hmem htake
      simp only [List.mem_append, List.mem_singleton] at hmem
      rcases hmem with ⟨⟨hm | hm⟩ | hm⟩ | hm
      · exact absurd hm (hprodno cd)
      · simp at hm
      · exact hcommit cd hm
      · exact absurd (hkill cd hm htake) not_false
  | err e =>
    simp only [] at hcycle
    injection hcycle with hc1 hc2
    subst hc2
    intro cd hmem htake
    simp only [List.mem_append, List.mem_singleton] at hmem
    rcases hmem with ⟨hm | hm⟩ | hm
    · exact absurd hm (hprodno cd)
    · simp at hm
    · exact hcommit cd hm
  | panicked =>
    simp only [] at hcycle
    injection hcycle with hc1 hc2
    subst hc2
    intro cd hmem htake
    simp only [List.mem_append, List.mem_singleton] at hmem
    rcases hmem with ⟨hm | hm⟩ | hm
    · exact absurd hm (hprodno cd)
    · simp at hm
    · exact hcommit cd hm
  | outOfFuel =>
    simp only [] at hcycle
    injection hcycle with hc1 hc2
    subst hc2
    intro cd hmem htake
    simp only [List.mem_append, List.mem_singleton] at hmem
    rcases hmem with ⟨hm | hm⟩ | hm
    · exact absurd hm (hprodno cd)
    · simp at hm
    · exact hcommit cd hm

theorem c6_core (trP B l1 l2 : List Event) (hblk ctx mC : Nat)
    (K cd pcd : List Nat)
    (hprodno : ∀ c, Event.sendTx c ∉ trP)
    (hnoB : ∀ c, Event.sendTx c ∉ B)
    (hpcd : pcd.take 4 = VERIFY_FUNCTION_SELECTOR)
    (hcd : cd.take 4 = VERIFY_FUNCTION_SELECTOR)
    (heq : ((trP ++ [Event.storageGetBlock hblk]) ++
        (Event.sendTx (commit_calldata K) ::
          (List.replicate mC (Event.receiptPoll ctx)
            ++ [Event.receiptFound ctx])))
        ++ (Event.sendTx pcd :: B) = l1 ++ Event.sendTx cd :: l2) :
    ∃ pre C txh m, l1 = pre ++ Event.sendTx (commit_calldata C) ::
      (List.replicate m (Event.receiptPoll txh)
        ++ [Event.receiptFound txh]) := by
  have hA : ∀ a ∈ (trP ++ [Event.storageGetBlock hblk]) ++
      (Event.sendTx (commit_calldata K) ::
        (List.replicate mC (Event.receiptPoll ctx)
          ++ [Event.receiptFound ctx])),
      ¬ ∃ c, a = Event.sendTx c ∧ c.take 4 = VERIFY_FUNCTION_SELECTOR := by
    intro a ha hQa
    obtain ⟨c, rfl, hc⟩ := hQa
    rcases List.mem_append.1 ha with ha | ha
    · rcases List.mem_append.1 ha with ha | ha
      · exact hprodno c ha
      · simp at ha
    · rcases List.mem_cons.1 ha with haeq | ha
      · injection haeq with haeq
        rw [haeq, commit_calldata_take4] at hc
        exact absurd hc (by decide)
      · rcases List.mem_append.1 ha with ha | ha
        · exact absurd (List.eq_of_mem_replicate ha) (by simp)
        · simp at ha
  have hB : ∀ b ∈ B,
      ¬ ∃ c, b = Event.sendTx c ∧ c.take 4 = VERIFY_FUNCTION_SELECTOR := by
    rintro b hb ⟨c, rfl, _⟩
    exact hnoB c hb
  obtain ⟨g1, g2, g3⟩ := split_unique
    (fun ev => ∃ c, ev = Event.sendTx c ∧ c.take 4 = VERIFY_FUNCTION_SELECTOR)
    ((trP ++ [Event.storageGetBlock hblk]) ++
      (Event.sendTx (commit_calldata K) ::
        (List.replicate mC (Event.receiptPoll ctx)
          ++ [Event.receiptFound ctx])))
    (Event.sendTx pcd) B l1 (Event.sendTx cd) l2 heq
    ⟨pcd, rfl, hpcd⟩ ⟨cd, rfl, hcd⟩ hA hB
  exact ⟨trP ++ [Event.storageGetBlock hblk], K, ctx, mC, by rw [g1]⟩

/-- C6: in every cycle of the production loop, any proof submission (a
settlement transaction whose calldata carries the verify selector) is
strictly preceded in the cycle's event trace by a completed commit phase:
a commit-selector submission followed by its receipt polls and a receipt
confirmation.  So `send_proof` is never begun before the same cycle's
commitment transaction has been confirmed by a receipt. -/
theorem c6_commit_confirmed_before_proof (keccak : List Nat → List Nat)
    (encode_to_vec : Nat → List Nat) (p : Proposer) (env : CycleEnv)
    (fuel head : Nat) (out : CycleOutcome) (tr : List Event)
    (hcycle : start_cycle keccak encode_to_vec p env fuel head = (out, tr)) :
    ∀ l1 l2 cd, tr = l1 ++ Event.sendTx cd :: l2 →
      cd.take 4 = VERIFY_FUNCTION_SELECTOR →
      ∃ pre C txh m, l1 = pre ++ Event.sendTx (commit_calldata C) ::
        (List.replicate m (Event.receiptPoll txh)
          ++ [Event.receiptFound txh]) := by
  intro l1 l2 cd hsplit hverify
  have hmemcd : Event.sendTx cd ∈ tr := by rw [hsplit]; simp
  unfold start_cycle at hcycle
  rcases hprod : produce_block env.engine head with ⟨pres, trP⟩
  rw [hprod] at hcycle
  have hprodno := produce_block_no_sendTx env.engine head pres trP hprod
  cases pres with
  | error e =>
    simp only [] at hcycle
    injection hcycle with hc1 hc2; subst hc2
    exact absurd hmemcd (hprodno cd)
  | ok hb =>
    simp only [] at hcycle
    by_cases hz : hb = 0
    · rw [if_pos hz] at hcycle
      injection hcycle with hc1 hc2; subst hc2
      exact absurd hmemcd (hprodno cd)
    · rw [if_neg hz] at hcycle
      cases hst : env.get_block_by_hash hb with
      | error e =>
        rw [hst] at hcycle
        simp only [] at hcycle
        injection hcycle with hc1 hc2; subst hc2
        simp only [List.mem_append, List.mem_singleton] at hmemcd
        rcases hmemcd with hm | hm
        · exact absurd hm (hprodno cd)
        · simp at hm
      | ok ob =>
        rw [hst] at hcycle
        cases ob with
        | none =>
          simp only [] at hcycle
          injection hcycle with hc1 hc2; subst hc2
          simp only [List.mem_append, List.mem_singleton] at hmemcd
          rcases hmemcd with hm | hm
          · exact absurd hm (hprodno cd)
          · simp at hm
        | some b =>
          simp only [] at hcycle
          rcases hsc : send_commitment p env.commitRpc env.commitReceipt fuel
            (keccak (encode_to_vec b)) with ⟨oc, trc⟩
          rw [hsc] at hcycle
          have hcommitall : ∀ cd0, Event.sendTx cd0 ∈ trc →
              cd0 = commit_calldata (keccak (encode_to_vec b)) :=
            fun cd0 hm => send_commitment_mem_sendTx p env.commitRpc
              env.commitReceipt fuel (keccak (encode_to_vec b)) oc trc cd0
              hsc hm
          have hkillc : Event.sendTx cd ∈ trc → False := by
            intro hm
            have := hcommitall cd hm
            rw [this, commit_calldata_take4] at hverify
            exact absurd hverify (by decide)
          cases oc with
          | ok ctx =>
            simp only [] at hcycle
            obtain ⟨mC, hmC⟩ := send_commitment_ok_trace p env.commitRpc
              env.commitReceipt fuel (keccak (encode_to_vec b)) ctx trc hsc
            rcases hsp : send_proof p env.proofRpc env.proofReceipt fuel []
              with ⟨op, trp⟩
            rw [hsp] at hcycle
            rcases send_proof_any_trace p env.proofRpc env.proofReceipt fuel
              [] op trp hsp with htrp | ⟨tail, htrp, hnotail⟩
            · subst htrp
              cases op with
              | ok ptx =>
                simp only [] at hcycle
                injection hcycle with hc1 hc2; subst hc2
                simp only [List.mem_append, List.mem_singleton] at hmemcd
                rcases hmemcd with ⟨⟨⟨hm | hm⟩ | hm⟩ | hm⟩ | hm
                · exact absurd hm (hprodno cd)
                · simp at hm
                · exact absurd (hkillc hm) not_false
                · simp at hm
                · simp at hm
              | err e =>
                simp only [] at hcycle
                injection hcycle with hc1 hc2; subst hc2
                simp only [List.mem_append, List.mem_singleton] at hmemcd
                rcases hmemcd with ⟨⟨hm | hm⟩ | hm⟩ | hm
                · exact absurd hm (hprodno cd)
                · simp at hm
                · exact absurd (hkillc hm) not_false
                · simp at hm
              | panicked =>
                simp only [] at hcycle
                injection hcycle with hc1 hc2; subst hc2
                simp only [List.mem_append, List.mem_singleton] at hmemcd
                rcases hmemcd with ⟨⟨hm | hm⟩ | hm⟩ | hm
                · exact absurd hm (hprodno cd)
                · simp at hm
                · exact absurd (hkillc hm) not_false
                · simp at hm
              | outOfFuel =>
                simp only [] at hcycle
                injection hcycle with hc1 hc2; subst hc2
                simp only [List.mem_append, List.mem_singleton] at hmemcd
                rcases hmemcd with ⟨⟨hm | hm⟩ | hm⟩ | hm
                · exact absurd hm (hprodno cd)
                · simp at hm
                · exact absurd (hkillc hm) not_false
                · simp at hm
            · subst htrp
              cases op with
              | ok ptx =>
                simp only [] at hcycle
                injection hcycle with hc1 hc2; subst hc2
                rw [hmC] at hsplit
                have hre : (((trP ++ [Event.storageGetBlock hb]) ++
                    (Event.sendTx
                        (commit_calldata (keccak (encode_to_vec b))) ::
                      (List.replicate mC (Event.receiptPoll ctx)
                        ++ [Event.receiptFound ctx])))
                    ++ (Event.sendTx (proof_calldata []) :: tail))
                    ++ [Event.sleepInterval] =
                    ((trP ++ [Event.storageGetBlock hb]) ++
                      (Event.sendTx
                          (commit_calldata (keccak (encode_to_vec b))) ::
                        (List.replicate mC (Event.receiptPoll ctx)
                          ++ [Event.receiptFound ctx])))
                    ++ (Event.sendTx (proof_calldata []) ::
                      (tail ++ [Event.sleepInterval])) := by
                  simp
                rw [hre] at hsplit
                refine c6_core trP (tail ++ [Event.sleepInterval]) l1 l2 hb ctx
                  mC (keccak (encode_to_vec b)) cd (proof_calldata [])
                  hprodno ?_ (proof_calldata_take4 []) hverify hsplit
                intro c hc
                rcases List.mem_append.1 hc with hc | hc
                · exact hnotail c hc
                · simp at hc
              | err e =>
                simp only [] at hcycle
                injection hcycle with hc1 hc2; subst hc2
                rw [hmC] at hsplit
                exact c6_core trP tail l1 l2 hb ctx mC
                  (keccak (encode_to_vec b)) cd (proof_calldata [])
                  hprodno hnotail (proof_calldata_take4 []) hverify hsplit
              | panicked =>
                simp only [] at hcycle
                injection hcycle with hc1 hc2; subst hc2
                rw [hmC] at hsplit
                exact c6_core trP tail l1 l2 hb ctx mC
                  (keccak (encode_to_vec b)) cd (proof_calldata [])
                  hprodno hnotail (proof_calldata_take4 []) hverify hsplit
              | outOfFuel =>
                simp only [] at hcycle
                injection hcycle with hc1 hc2; subst hc2
                rw [hmC] at hsplit
                exact c6_core trP tail l1 l2 hb ctx mC
                  (keccak (encode_to_vec b)) cd (proof_calldata [])
                  hprodno hnotail (proof_calldata_take4 []) hverify hsplit
          | err e =>
            simp only [] at hcycle
            injection hcycle with hc1 hc2; subst hc2
            simp only [List.mem_append, List.mem_singleton] at hmemcd
            rcases hmemcd with ⟨hm | hm⟩ | hm
            · exact absurd hm (hprodno cd)
            · simp at hm
            · exact absurd (hkillc hm) not_false
          | panicked =>
            simp only [] at hcycle
            injection hcycle with hc1 hc2; subst hc2
            simp only [List.mem_append, List.mem_singleton] at hmemcd
            rcases hmemcd with ⟨hm | hm⟩ | hm
            · exact absurd hm (hprodno cd)
            · simp at hm
            · exact absurd (hkillc hm) not_false
          | outOfFuel =>
            simp only [] at hcycle
            injection hcycle with hc1 hc2; subst hc2
            simp only [List.mem_append, List.mem_singleton] at hmemcd
            rcases hmemcd with ⟨hm | hm⟩ | hm
            · exact absurd hm (hprodno cd)
            · simp at hm
            · exact absurd (hkillc hm) not_false

/-- C5 witness: the layout and submitted-commitment facts instantiated on a
concrete successful cycle (head 5, produced hash 9, stored block 3). -/
theorem c5_witness :
    commit_calldata (List.replicate 32 1) =
      COMMIT_FUNCTION_SELECTOR ++ List.replicate 32 1 ∧
    (commit_calldata (List.replicate 32 1)).length = 36 ∧
    commit_calldata [] = commit_calldata (keccak0 (enc0 3)) := by
  have H := c5_commit_calldata_layout (List.replicate 32 1) (by simp)
    keccak0 enc0 proposer0 (envOf (engProduces 9) rpcOk rpcOk) 1 5 9 3
    [.engineForkchoice 5, .engineGetPayload 1, .engineNewPayload 7]
    [.engineForkchoice 5, .engineGetPayload 1, .engineNewPayload 7,
     .storageGetBlock 9, .sendTx (commit_calldata (keccak0 (enc0 3))),
     .receiptPoll 77, .receiptFound 77, .sendTx (proof_calldata []),
     .receiptPoll 77, .receiptFound 77, .sleepInterval]
    (.continueWith 9) rfl (by decide) rfl rfl
  exact ⟨H.1, H.2.1, H.2.2 (commit_calldata []) (by decide) rfl⟩

/-- C6 witness: on the same concrete successful cycle, the prefix of the
trace before the proof submission decomposes as a commit submission followed
by its receipt polls and receipt confirmation. -/
theorem c6_witness :
    ∃ pre C txh m,
      ([.engineForkchoice 5, .engineGetPayload 1, .engineNewPayload 7,
        .storageGetBlock 9, .sendTx (commit_calldata (keccak0 (enc0 3))),
        .receiptPoll 77, .receiptFound 77] : List Event) =
      pre ++ Event.sendTx (commit_calldata C) ::
        (List.replicate m (Event.receiptPoll txh)
          ++ [Event.receiptFound txh]) := by
  exact c6_commit_confirmed_before_proof keccak0 enc0 proposer0
    (envOf (engProduces 9) rpcOk rpcOk) 1 5 (.continueWith 9)
    [.engineForkchoice 5, .engineGetPayload 1, .engineNewPayload 7,
     .storageGetBlock 9, .sendTx (commit_calldata (keccak0 (enc0 3))),
     .receiptPoll 77, .receiptFound 77, .sendTx (proof_calldata []),
     .receiptPoll 77, .receiptFound 77, .sleepInterval] rfl
    [.engineForkchoice 5, .engineGetPayload 1, .engineNewPayload 7,
     .storageGetBlock 9, .sendTx (commit_calldata (keccak0 (enc0 3))),
     .receiptPoll 77, .receiptFound 77]
    [.receiptPoll 77, .receiptFound 77, .sleepInterval]
    (proof_calldata []) rfl (proof_calldata_take4 [])

end Spec2Proof
